import Mathlib

/-!
Verification development for the Presence & Group-Messaging Coordinator of a
real-time chat backend (Node.js + socket.io + MySQL).  The JavaScript server
code is shallowly embedded below: the in-memory connection registry
(`connectedUsers`), the transport-level broadcast-group membership
(`roomPairs`), and the MySQL tables are explicit Lean state; each socket.io
event handler becomes a pure function from a server state and event data to a
new server state together with a trace of observable actions (database
queries, room joins and leaves, emissions to sockets and rooms).

Store queries are the only failure points; arbitrary store failures are
modelled by a `failNext` injection list in the database state (one flag popped
per query, empty list meaning no injected failure), and the legacy-schema
condition (messages table lacking the `is_group` column) by the `hasIsGroup`
flag, which makes any query touching that column report the specific
unknown-column failure signature the code tests for
(`ER_BAD_FIELD_ERROR` naming `is_group`).
-/

/-- A JavaScript identifier value as it arrives in socket events: either a
numeric token or a textual token.  The textual form is the canonical decimal
rendering of the underlying number (ids in this system are positive database
integers), so JavaScript loose equality between any two forms agrees with
equality of the underlying numeric values. -/
inductive JId where
  | num (n : Nat)
  | str (n : Nat)
deriving DecidableEq, Repr

/-- The numeric value underlying an id token (what MySQL stores when the
token is bound to an INT column, coercing textual tokens). -/
def JId.val : JId → Nat
  | num n => n
  | str n => n

/-- JavaScript loose equality `==` between two id tokens: a number and a
string compare via numeric coercion, and two canonical decimal strings are
equal exactly when their values are. -/
def looseEq (a b : JId) : Bool := a.val = b.val

/-- JavaScript truthiness of an id token: the number 0 is falsy while any
string rendering of a number (even "0") is nonempty, hence truthy. -/
def JId.truthy : JId → Bool
  | num n => n ≠ 0
  | str _ => true

/-- An entry of the in-memory `connectedUsers` map (the Connection
Registry): socket id, identified user id token, user name, online flag. -/
structure ConnEntry where
  socketId : String
  userId : JId
  userName : String
  online : Bool
deriving DecidableEq, Repr

/-- The `connectedUsers` map, keyed by socket id.  JavaScript `Map`
iteration order is insertion order, so the map is a list of key/entry
pairs. -/
abbrev ConnMap := List (String × ConnEntry)

/-- Lookup `connectedUsers.get(socketId)`. -/
def lookupConn (us : ConnMap) (sid : String) : Option ConnEntry :=
  (us.find? (fun p => p.1 = sid)).map (·.2)

/-- The helper `findSocketIdByUserId(userId)`: iterate the map entries in
order and return the first socket id whose entry's `userId` compares equal
to the argument under JavaScript loose equality, or null. -/
def findSocketIdByUserId (us : ConnMap) (uid : JId) : Option String :=
  (us.find? (fun p => looseEq p.2.userId uid)).map (·.1)

/-! ### Decimal rendering of numbers

JavaScript template interpolation renders a nonnegative integer in decimal;
`toDecimalAux` is that rendering with an explicit fuel argument (fuel
`n + 1` always suffices for input `n`), kept structurally recursive so that
concrete tokens evaluate inside the kernel. -/

/-- The decimal digit character for a digit (values `9` and above all map
from the catch-all arm; only digits below 10 ever arise). -/
def decChar : Nat → Char
  | 0 => '0'
  | 1 => '1'
  | 2 => '2'
  | 3 => '3'
  | 4 => '4'
  | 5 => '5'
  | 6 => '6'
  | 7 => '7'
  | 8 => '8'
  | _ => '9'

/-- Fueled decimal rendering: most-significant digits first. -/
def toDecimalAux : Nat → Nat → List Char
  | 0, _ => []
  | fuel + 1, n =>
    if n < 10 then [decChar n]
    else toDecimalAux fuel (n / 10) ++ [decChar (n % 10)]

/-- Decimal string of a nonnegative integer, as JavaScript string
interpolation produces it. -/
def natToString (n : Nat) : String := ⟨toDecimalAux (n + 1) n⟩

/-- The deterministic private room token of the two participants of a direct
message: `private_` followed by the smaller id, an underscore, and the larger
id (from `private_${Math.min(a,b)}_${Math.max(a,b)}` at both the
socket handler and the HTTP history route). -/
def privateRoomId (a b : Nat) : String :=
  "private_" ++ natToString (min a b) ++ "_" ++ natToString (max a b)

/-- The group id generated by the create-group handler:
`'group_' + Date.now()` where `now` is the millisecond timestamp at the
moment the event is handled. -/
def genGroupId (now : Nat) : String := "group_" ++ natToString now

theorem decChar_ne_underscore (d : Nat) : decChar d ≠ '_' := by
  unfold decChar
  split <;> decide

theorem decChar_inj {d e : Nat} (hd : d < 10) (he : e < 10)
    (h : decChar d = decChar e) : d = e := by
  interval_cases d <;> interval_cases e <;> simp_all [decChar]

theorem toDecimalAux_ne_nil (fuel n : Nat) :
    toDecimalAux (fuel + 1) n ≠ [] := by
  unfold toDecimalAux
  split
  · simp
  · simp

theorem toDecimalAux_mem (fuel n : Nat) (c : Char)
    (h : c ∈ toDecimalAux fuel n) : ∃ d, d < 10 ∧ c = decChar d := by
  induction fuel generalizing n with
  | zero => simp [toDecimalAux] at h
  | succ f ih =>
    unfold toDecimalAux at h
    split at h
    · rename_i hn
      simp at h
      exact ⟨n, hn, h⟩
    · rcases List.mem_append.mp h with h1 | h2
      · exact ih _ h1
      · simp at h2
        exact ⟨n % 10, Nat.mod_lt _ (by omega), h2⟩

theorem underscore_not_mem_toDecimalAux (fuel n : Nat) :
    ('_' : Char) ∉ toDecimalAux fuel n := by
  intro h
  obtain ⟨d, _, hd⟩ := toDecimalAux_mem fuel n _ h
  exact decChar_ne_underscore d hd.symm

theorem toDecimalAux_stable (n : Nat) :
    ∀ fuel, n < fuel → toDecimalAux fuel n = toDecimalAux (n + 1) n := by
  induction n using Nat.strong_induction_on with
  | _ n ih =>
    intro fuel hf
    match fuel, hf with
    | f + 1, _ =>
      show toDecimalAux (f + 1) n = toDecimalAux (n + 1) n
      unfold toDecimalAux
      split
      · rfl
      · rename_i hn
        push_neg at hn
        have hdiv : n / 10 < n := Nat.div_lt_self (by omega) (by omega)
        have h1 : toDecimalAux f (n / 10) = toDecimalAux (n / 10 + 1) (n / 10) :=
          ih (n / 10) hdiv f (by omega)
        have h2 : toDecimalAux n (n / 10) = toDecimalAux (n / 10 + 1) (n / 10) :=
          ih (n / 10) hdiv n (by omega)
        rw [h1, h2]

theorem append_singleton_inj {α : Type} {xs ys : List α} {a b : α}
    (h : xs ++ [a] = ys ++ [b]) : xs = ys ∧ a = b := by
  have := congrArg List.reverse h
  simp at this
  obtain ⟨h1, h2⟩ := this
  exact ⟨by simpa using congrArg List.reverse h2, h1⟩

theorem toDecimal_inj : ∀ m n : Nat,
    toDecimalAux (m + 1) m = toDecimalAux (n + 1) n → m = n := by
  intro m
  induction m using Nat.strong_induction_on with
  | _ m ih =>
    intro n h
    unfold toDecimalAux at h
    by_cases hm : m < 10 <;> by_cases hn : n < 10
    · simp [hm, hn] at h
      exact decChar_inj hm hn h
    · simp [hm, hn] at h
      have hne : toDecimalAux n (n / 10) ≠ [] := by
        have : n / 10 < n := Nat.div_lt_self (by omega) (by omega)
        rw [toDecimalAux_stable (n / 10) n this]
        exact toDecimalAux_ne_nil _ _
      have hlen := congrArg List.length h
      simp at hlen
      exact absurd hlen hne
    · simp [hm, hn] at h
      have hne : toDecimalAux m (m / 10) ≠ [] := by
        have : m / 10 < m := Nat.div_lt_self (by omega) (by omega)
        rw [toDecimalAux_stable (m / 10) m this]
        exact toDecimalAux_ne_nil _ _
      have hlen := congrArg List.length h
      simp at hlen
      exact absurd hlen hne
    · simp [hm, hn] at h
      obtain ⟨h1, h2⟩ := append_singleton_inj h
      have hdm : m / 10 < m := Nat.div_lt_self (by omega) (by omega)
      have hdn : n / 10 < n := Nat.div_lt_self (by omega) (by omega)
      rw [toDecimalAux_stable (m / 10) m (by omega),
          toDecimalAux_stable (n / 10) n (by omega)] at h1
      have hq : m / 10 = n / 10 := ih (m / 10) hdm (n / 10) h1
      have hr : m % 10 = n % 10 :=
        decChar_inj (Nat.mod_lt _ (by omega)) (Nat.mod_lt _ (by omega)) h2
      omega

theorem natToString_inj {m n : Nat} (h : natToString m = natToString n) :
    m = n := by
  unfold natToString at h
  exact toDecimal_inj m n (by injection h)

theorem underscore_split {xs xs' ys ys' : List Char}
    (hx : ('_' : Char) ∉ xs) (hx' : ('_' : Char) ∉ xs')
    (h : xs ++ ('_' : Char) :: ys = xs' ++ ('_' : Char) :: ys') :
    xs = xs' ∧ ys = ys' := by
  induction xs generalizing xs' with
  | nil =>
    cases xs' with
    | nil => simpa using h
    | cons a as =>
      simp at h
      exact absurd (by simp [← h.1]) hx'
  | cons a as ihx =>
    cases xs' with
    | nil =>
      simp at h
      exact absurd (by simp [h.1]) hx
    | cons b bs =>
      simp at h
      obtain ⟨hab, htl⟩ := h
      have := @ihx bs (by intro hm; exact hx (List.mem_cons_of_mem _ hm))
        (by intro hm; exact hx' (List.mem_cons_of_mem _ hm)) htl
      exact ⟨by simp [hab, this.1], this.2⟩

/-! ### The persistent store

The MySQL tables touched by the coordinator, plus the schema flag and the
failure-injection list.  `nextMessageId` / `nextGroupRowId` model the
AUTO_INCREMENT counters whose values the driver reports as `insertId`. -/

/-- A typed store failure: the specific unknown-column signature the code
tests for (`err.code === ER_BAD_FIELD_ERROR` with `err.sqlMessage` naming
`is_group`), or any other error. -/
inductive DbErr where
  | badFieldIsGroup
  | other
deriving DecidableEq, Repr

/-- A row of the `messages` table. -/
structure MessageRow where
  id : Nat
  userId : Nat
  content : String
  roomId : String
  isGroup : Bool
deriving DecidableEq, Repr

/-- A row of the `chat_groups` table. -/
structure GroupRow where
  id : Nat
  name : String
  creatorId : Nat
  groupId : String
deriving DecidableEq, Repr

/-- A row of the `group_members` table (the persisted membership
relation, UNIQUE on the pair). -/
structure MemberRow where
  groupId : String
  userId : Nat
deriving DecidableEq, Repr

/-- The store state. -/
structure DbState where
  messages : List MessageRow
  nextMessageId : Nat
  chat_groups : List GroupRow
  nextGroupRowId : Nat
  group_members : List MemberRow
  users : List (Nat × String)
  hasIsGroup : Bool
  failNext : List Bool
deriving DecidableEq, Repr

/-- Pop the next failure-injection flag (no flag means no failure). -/
def popFail (db : DbState) : Bool × DbState :=
  match db.failNext with
  | [] => (false, db)
  | b :: rest => (b, { db with failNext := rest })

/-- INSERT INTO messages: `withIsGroup` selects the query that names the
`is_group` column (value `true`); the reduced query leaves the column at its
schema default `false`.  Reports the specific unknown-column failure when the
named column is absent from the schema. -/
def dbInsertMessage (withIsGroup : Bool) (uid : Nat) (content roomId : String)
    (db : DbState) : DbState × Except DbErr Nat :=
  let (fail, db1) := popFail db
  if fail then (db1, .error .other)
  else if withIsGroup && !db1.hasIsGroup then (db1, .error .badFieldIsGroup)
  else ({ db1 with
            messages := db1.messages ++
              [⟨db1.nextMessageId, uid, content, roomId, withIsGroup⟩],
            nextMessageId := db1.nextMessageId + 1 },
        .ok db1.nextMessageId)

/-- INSERT INTO chat_groups: fails on a UNIQUE violation of `group_id`. -/
def dbInsertGroup (name : String) (creatorId : Nat) (groupId : String)
    (db : DbState) : DbState × Except DbErr Nat :=
  let (fail, db1) := popFail db
  if fail then (db1, .error .other)
  else if db1.chat_groups.any (fun g => g.groupId = groupId) then
    (db1, .error .other)
  else ({ db1 with
            chat_groups := db1.chat_groups ++
              [⟨db1.nextGroupRowId, name, creatorId, groupId⟩],
            nextGroupRowId := db1.nextGroupRowId + 1 },
        .ok db1.nextGroupRowId)

/-- Whether a batch of membership values has an internal duplicate. -/
def hasDupB : List (String × Nat) → Bool
  | [] => false
  | v :: vs => vs.contains v || hasDupB vs

/-- Plain multi-row INSERT INTO group_members: the whole statement fails on
any UNIQUE (group_id, user_id) violation, either inside the batch or against
an existing row, inserting nothing in that case. -/
def dbInsertMembers (vals : List (String × Nat)) (db : DbState) :
    DbState × Except DbErr Unit :=
  let (fail, db1) := popFail db
  if fail then (db1, .error .other)
  else if hasDupB vals ||
      vals.any (fun v => db1.group_members.any
        (fun r => r.groupId = v.1 && r.userId = v.2)) then
    (db1, .error .other)
  else ({ db1 with
            group_members := db1.group_members ++ vals.map (fun v => ⟨v.1, v.2⟩) },
        .ok ())

/-- INSERT ... ON DUPLICATE KEY UPDATE user_id = VALUES(user_id): a
duplicate pair (against an existing row or earlier in the batch) is treated
as an update in place, i.e. it leaves the table unchanged. -/
def dbUpsertMembers (vals : List (String × Nat)) (db : DbState) :
    DbState × Except DbErr Unit :=
  let (fail, db1) := popFail db
  if fail then (db1, .error .other)
  else ({ db1 with
            group_members := vals.foldl (fun rows v =>
              if rows.any (fun r => r.groupId = v.1 && r.userId = v.2) then rows
              else rows ++ [⟨v.1, v.2⟩]) db1.group_members },
        .ok ())

/-- DELETE FROM group_members WHERE group_id = ? AND user_id = ?. -/
def dbDeleteMembership (groupId : String) (uid : Nat) (db : DbState) :
    DbState × Except DbErr Unit :=
  let (fail, db1) := popFail db
  if fail then (db1, .error .other)
  else ({ db1 with
            group_members := db1.group_members.filter
              (fun r => !(r.groupId = groupId && r.userId = uid)) },
        .ok ())

/-- SELECT COUNT(*) FROM group_members WHERE group_id = ?. -/
def dbCountMembers (groupId : String) (db : DbState) :
    DbState × Except DbErr Nat :=
  let (fail, db1) := popFail db
  if fail then (db1, .error .other)
  else (db1, .ok ((db1.group_members.filter (fun r => r.groupId = groupId)).length))

/-- DELETE FROM chat_groups WHERE group_id = ?. -/
def dbDeleteGroup (groupId : String) (db : DbState) :
    DbState × Except DbErr Unit :=
  let (fail, db1) := popFail db
  if fail then (db1, .error .other)
  else ({ db1 with
            chat_groups := db1.chat_groups.filter (fun g => !(g.groupId = groupId)) },
        .ok ())

/-- SELECT * FROM chat_groups WHERE group_id = ? AND creator_id = ? (the
authorization query of the add-members and remove-member handlers). -/
def dbFindGroupByIdAndCreator (groupId : String) (creatorId : Nat)
    (db : DbState) : DbState × Except DbErr (Option GroupRow) :=
  let (fail, db1) := popFail db
  if fail then (db1, .error .other)
  else (db1, .ok (db1.chat_groups.find?
    (fun g => g.groupId = groupId && g.creatorId = creatorId)))

/-- SELECT name FROM users WHERE id = ?. -/
def dbFindUserName (uid : Nat) (db : DbState) :
    DbState × Except DbErr (Option String) :=
  let (fail, db1) := popFail db
  if fail then (db1, .error .other)
  else (db1, .ok ((db1.users.find? (fun p => p.1 = uid)).map (·.2)))

/-- SELECT id, name FROM users WHERE id IN (?). -/
def dbUsersIn (ids : List Nat) (db : DbState) :
    DbState × Except DbErr (List (Nat × String)) :=
  let (fail, db1) := popFail db
  if fail then (db1, .error .other)
  else (db1, .ok (db1.users.filter (fun p => ids.contains p.1)))

/-- The pure rows of the user-groups query (used by `sendUserGroups` and
the HTTP groups route): every group having a membership row for the user,
with its name, creator and member count. -/
def userGroupsRows (db : DbState) (v : Nat) :
    List (String × String × Nat × Nat) :=
  (db.chat_groups.filter (fun g =>
      db.group_members.any (fun r => r.groupId = g.groupId && r.userId = v))).map
    (fun g => (g.groupId, g.name, g.creatorId,
      (db.group_members.filter (fun r => r.groupId = g.groupId)).length))

/-- The user-groups query as a store call. -/
def dbUserGroups (v : Nat) (db : DbState) :
    DbState × Except DbErr (List (String × String × Nat × Nat)) :=
  let (fail, db1) := popFail db
  if fail then (db1, .error .other)
  else (db1, .ok (userGroupsRows db1 v))

/-- SELECT ... FROM chat_groups WHERE group_id = ? (the
`findGroupByGroupId` store operation, backing the group-metadata route). -/
def findGroupByGroupId (db : DbState) (g : String) : Option GroupRow :=
  db.chat_groups.find? (fun r => r.groupId = g)

/-- The pure rows of the group-history read: messages of the room (with the
`is_group` filter when requested), inner-joined to `users` for the author
name, in ascending creation order (= insertion order), capped at 100. -/
def selectGroupMessages (withFilter : Bool) (g : String) (db : DbState) :
    List (Nat × Nat × String × String) :=
  ((db.messages.filter (fun m => m.roomId = g && (!withFilter || m.isGroup))).filterMap
    (fun m => (db.users.find? (fun p => p.1 = m.userId)).map
      (fun usr => (m.id, m.userId, usr.2, m.content)))).take 100

/-- The group-history read as a store call: the filtered form names the
`is_group` column and reports the unknown-column signature on a legacy
schema. -/
def dbSelectGroupMessages (withFilter : Bool) (g : String) (db : DbState) :
    DbState × Except DbErr (List (Nat × Nat × String × String)) :=
  let (fail, db1) := popFail db
  if fail then (db1, .error .other)
  else if withFilter && !db1.hasIsGroup then (db1, .error .badFieldIsGroup)
  else (db1, .ok (selectGroupMessages withFilter g db1))

/-! ### Transport-level state and observable actions -/

/-- Payloads of server-originated emissions. -/
inductive Payload where
  | privateMsg (fromUserId : JId) (fromUserName : String) (message : String)
  | messageSent (toUserId : JId) (message : String) (messageId : Option Nat)
  | typingEv (userId : JId) (userName : String) (isTyping : Bool)
  | groupMsg (messageId : Nat) (groupId : String) (fromUserId : JId)
      (fromUserName : String) (message : String)
  | systemMsg (groupId : String) (message : String)
  | groupCreatedOk (rowId : Nat) (groupId : String) (name : String)
      (creatorId : JId) (memberIds : List JId)
  | groupCreatedNotify (rowId : Nat) (groupId : String) (name : String)
      (creatorId : JId)
  | groupCreatedFail (error : String)
  | leaveGroupResult (success : Bool) (groupId : String)
  | memberRemoved (groupId : String) (userId : JId) (userName : String)
  | memberRemovedNamed (groupId groupName : String) (userId : JId)
      (userName : String)
  | membersAdded (groupId : String) (addedUsers : List (Nat × String))
  | groupList (groups : List (String × String × Nat × Nat))
deriving DecidableEq, Repr

/-- An observable action of a handler, in execution order: a store read or
write, a transport-room join or leave, or an emission to a single socket or
to every socket currently joined to a room.  A store write records whether
it is the message insert (and whether it named the `is_group` column) and
whether the store reported success. -/
inductive Act where
  | dbRead
  | dbInsertMsg (withIsGroup : Bool) (userId : Nat) (content roomId : String)
      (ok : Bool)
  | dbWriteOther
  | join (sid room : String)
  | leave (sid room : String)
  | emitSock (sid : String) (p : Payload)
  | emitRoom (room : String) (p : Payload)
deriving DecidableEq, Repr

/-- The full coordinator state: the connection registry, the transport-level
(socket, room) membership pairs, the store, and the current millisecond
clock (`Date.now()`). -/
structure ServerState where
  connectedUsers : ConnMap
  roomPairs : List (String × String)
  db : DbState
  now : Nat
deriving DecidableEq, Repr

/-- socket.join(room): idempotent addition of the (socket, room) pair. -/
def joinRoom (ps : List (String × String)) (sid room : String) :
    List (String × String) :=
  if ps.contains (sid, room) then ps else ps ++ [(sid, room)]

/-- socket.leave(room): removal of the (socket, room) pair. -/
def leaveRoom (ps : List (String × String)) (sid room : String) :
    List (String × String) :=
  ps.filter (fun p => !(p.1 = sid && p.2 = room))

/-- Array.from(socket.rooms): the rooms a socket is joined to. -/
def socketRooms (ps : List (String × String)) (sid : String) : List String :=
  (ps.filter (fun p => p.1 = sid)).map (·.2)

/-- io.sockets.adapter.rooms.get(room): the sockets joined to a room. -/
def roomSockets (ps : List (String × String)) (room : String) : List String :=
  (ps.filter (fun p => p.2 = room)).map (·.1)

/-! ### Socket event handlers -/

/-- Event data of `private-message`. -/
structure PrivateMsgData where
  toUserId : JId
  fromUserId : JId
  fromUserName : String
  message : String
deriving DecidableEq, Repr

/-- The `private-message` handler: resolve the recipient's socket, persist
the message into the private room (the insert never names `is_group`, so
the column keeps its schema default), then — regardless of the persistence
outcome — deliver to the recipient if online, and acknowledge to the sender
with the persisted id on success or null on failure. -/
def privateMessage (st : ServerState) (sid : String) (d : PrivateMsgData) :
    ServerState × List Act :=
  let recip := findSocketIdByUserId st.connectedUsers d.toUserId
  let roomId := privateRoomId d.fromUserId.val d.toUserId.val
  let (db1, res) := dbInsertMessage false d.fromUserId.val d.message roomId st.db
  let insAct := Act.dbInsertMsg false d.fromUserId.val d.message roomId
    (match res with | .ok _ => true | .error _ => false)
  let deliver : List Act :=
    match recip with
    | some rsid => [Act.emitSock rsid
        (Payload.privateMsg d.fromUserId d.fromUserName d.message)]
    | none => []
  let ack := Act.emitSock sid (Payload.messageSent d.toUserId d.message
    (match res with | .ok n => some n | .error _ => none))
  ({ st with db := db1 }, insAct :: deliver ++ [ack])

/-- Event data of `group-message`. -/
structure GroupMsgData where
  groupId : String
  message : String
deriving DecidableEq, Repr

/-- The broadcast of `sendGroupMessage(result, groupId, userData, message)`:
one emission to every socket currently joined to the group room, carrying
the store-assigned `result.insertId`. -/
def sendGroupMessage (insertId : Nat) (groupId : String) (u : ConnEntry)
    (message : String) : Act :=
  Act.emitRoom groupId
    (Payload.groupMsg insertId groupId u.userId u.userName message)

/-- The `group-message` handler: drop the event if the socket never
identified; otherwise re-join the sender's socket to the group room if it is not
currently a member; persist with the `is_group` column, falling back to the
reduced insert exactly on the unknown-column signature; broadcast only after
a successful insert, carrying its `insertId`. -/
def groupMessage (st : ServerState) (sid : String) (d : GroupMsgData) :
    ServerState × List Act :=
  match lookupConn st.connectedUsers sid with
  | none => (st, [])
  | some u =>
    let (rp1, joinActs) :=
      if (socketRooms st.roomPairs sid).contains d.groupId then
        (st.roomPairs, ([] : List Act))
      else (joinRoom st.roomPairs sid d.groupId, [Act.join sid d.groupId])
    let (db1, res) := dbInsertMessage true u.userId.val d.message d.groupId st.db
    let insAct := Act.dbInsertMsg true u.userId.val d.message d.groupId
      (match res with | .ok _ => true | .error _ => false)
    match res with
    | .ok insertId =>
        ({ st with roomPairs := rp1, db := db1 },
         joinActs ++ [insAct, sendGroupMessage insertId d.groupId u d.message])
    | .error .badFieldIsGroup =>
        let (db2, res2) := dbInsertMessage false u.userId.val d.message d.groupId db1
        let insAct2 := Act.dbInsertMsg false u.userId.val d.message d.groupId
          (match res2 with | .ok _ => true | .error _ => false)
        match res2 with
        | .ok insertId =>
            ({ st with roomPairs := rp1, db := db2 },
             joinActs ++ [insAct, insAct2,
               sendGroupMessage insertId d.groupId u d.message])
        | .error _ =>
            ({ st with roomPairs := rp1, db := db2 }, joinActs ++ [insAct, insAct2])
    | .error .other =>
        ({ st with roomPairs := rp1, db := db1 }, joinActs ++ [insAct])

/-- Event data of `create-group`. -/
structure CreateGroupData where
  groupName : String
  memberIds : List JId
deriving DecidableEq, Repr

/-- The per-member notification loop of a successful group creation: in
member order, resolve the member's socket; if online, emit the
`group-created` object to it and — unless it is the creator's own socket —
join it to the group room.  Offline members are skipped. -/
def notifyStep (us : ConnMap) (sid groupId : String) (pl : Payload) :
    List (String × String) × List Act → JId → List (String × String) × List Act :=
  fun p m =>
    match findSocketIdByUserId us m with
    | some msid =>
        if msid = sid then (p.1, p.2 ++ [Act.emitSock msid pl])
        else (joinRoom p.1 msid groupId,
              p.2 ++ [Act.emitSock msid pl, Act.join msid groupId])
    | none => p

/-- The `create-group` handler: drop if unidentified; generate
`'group_' + Date.now()`; append the creator to the invite list unless the
identical token is already in it (strict `includes`); insert the group row,
then the membership batch; on either failure emit a failure notification to
the caller only; on success join the creator's socket, notify and join each
online member, and emit the creation system message to the group room. -/
def createGroup (st : ServerState) (sid : String) (d : CreateGroupData) :
    ServerState × List Act :=
  match lookupConn st.connectedUsers sid with
  | none => (st, [])
  | some u =>
    let groupId := genGroupId st.now
    let memberIds := if d.memberIds.contains u.userId then d.memberIds
      else d.memberIds ++ [u.userId]
    let (db1, res1) := dbInsertGroup d.groupName u.userId.val groupId st.db
    match res1 with
    | .error _ =>
        ({ st with db := db1 },
         [Act.dbWriteOther,
          Act.emitSock sid (Payload.groupCreatedFail "Failed to create group")])
    | .ok rowId =>
        let memberValues := memberIds.map (fun m => (groupId, m.val))
        let (db2, res2) := dbInsertMembers memberValues db1
        match res2 with
        | .error _ =>
            ({ st with db := db2 },
             [Act.dbWriteOther, Act.dbWriteOther,
              Act.emitSock sid (Payload.groupCreatedFail "Failed to add members")])
        | .ok _ =>
            let rp1 := joinRoom st.roomPairs sid groupId
            let pl := Payload.groupCreatedOk rowId groupId d.groupName
              u.userId memberIds
            let (rp2, acts) := memberIds.foldl
              (notifyStep st.connectedUsers sid groupId pl) (rp1, [])
            ({ st with db := db2, roomPairs := rp2 },
             [Act.dbWriteOther, Act.dbWriteOther, Act.join sid groupId] ++ acts ++
              [Act.emitRoom groupId (Payload.systemMsg groupId
                ("Group \"" ++ d.groupName ++ "\" created by " ++ u.userName))])

/-- The `leave-group` handler: drop if unidentified; delete the caller's own
membership row; on store failure report failure to the caller only; on
success leave the room, acknowledge to the caller, emit the departure system
message to the group room, then count the remaining members and delete the
group row exactly when the count is zero. -/
def leaveGroup (st : ServerState) (sid : String) (groupId : String) :
    ServerState × List Act :=
  match lookupConn st.connectedUsers sid with
  | none => (st, [])
  | some u =>
    let (db1, res1) := dbDeleteMembership groupId u.userId.val st.db
    match res1 with
    | .error _ =>
        ({ st with db := db1 },
         [Act.dbWriteOther, Act.emitSock sid (Payload.leaveGroupResult false groupId)])
    | .ok _ =>
        let rp1 := leaveRoom st.roomPairs sid groupId
        let acts1 := [Act.dbWriteOther, Act.leave sid groupId,
          Act.emitSock sid (Payload.leaveGroupResult true groupId),
          Act.emitRoom groupId (Payload.systemMsg groupId
            (u.userName ++ " has left the group"))]
        let (db2, res2) := dbCountMembers groupId db1
        match res2 with
        | .error _ => ({ st with db := db2, roomPairs := rp1 }, acts1 ++ [Act.dbRead])
        | .ok n =>
            if n = 0 then
              let (db3, _) := dbDeleteGroup groupId db2
              ({ st with db := db3, roomPairs := rp1 },
               acts1 ++ [Act.dbRead, Act.dbWriteOther])
            else ({ st with db := db2, roomPairs := rp1 }, acts1 ++ [Act.dbRead])

/-- The `remove-group-member` handler: drop if unidentified; authorize by
querying the group row by id and the caller as creator, aborting silently on
failure, absence or mismatch; look up the target's name, aborting silently
if absent; delete the membership row; then notify the removed user (and
force their socket out of the room) if online, notify the room, and emit the
removal system message. -/
def removeGroupMember (st : ServerState) (sid : String) (groupId : String)
    (userId : JId) : ServerState × List Act :=
  match lookupConn st.connectedUsers sid with
  | none => (st, [])
  | some u =>
    let (db1, res1) := dbFindGroupByIdAndCreator groupId u.userId.val st.db
    match res1 with
    | .error _ => ({ st with db := db1 }, [Act.dbRead])
    | .ok none => ({ st with db := db1 }, [Act.dbRead])
    | .ok (some ginfo) =>
        let (db2, res2) := dbFindUserName userId.val db1
        match res2 with
        | .error _ => ({ st with db := db2 }, [Act.dbRead, Act.dbRead])
        | .ok none => ({ st with db := db2 }, [Act.dbRead, Act.dbRead])
        | .ok (some uname) =>
            let (db3, res3) := dbDeleteMembership groupId userId.val db2
            match res3 with
            | .error _ =>
                ({ st with db := db3 }, [Act.dbRead, Act.dbRead, Act.dbWriteOther])
            | .ok _ =>
                let tailActs :=
                  [Act.emitRoom groupId (Payload.memberRemoved groupId userId uname),
                   Act.emitRoom groupId (Payload.systemMsg groupId
                     (uname ++ " has been removed from the group by " ++ u.userName))]
                match findSocketIdByUserId st.connectedUsers userId with
                | some rsid =>
                    ({ st with db := db3, roomPairs := leaveRoom st.roomPairs rsid groupId },
                     [Act.dbRead, Act.dbRead, Act.dbWriteOther,
                      Act.emitSock rsid (Payload.memberRemovedNamed groupId
                        ginfo.name userId uname),
                      Act.leave rsid groupId] ++ tailActs)
                | none =>
                    ({ st with db := db3 },
                     [Act.dbRead, Act.dbRead, Act.dbWriteOther] ++ tailActs)

/-- The per-added-user loop of `add-group-members`: join each online added
user's socket to the room and notify them with the group object. -/
def addNotifyStep (us : ConnMap) (groupId : String) (pl : Payload) :
    List (String × String) × List Act → Nat × String →
      List (String × String) × List Act :=
  fun p au =>
    match findSocketIdByUserId us (JId.num au.1) with
    | some msid =>
        (joinRoom p.1 msid groupId,
         p.2 ++ [Act.join msid groupId, Act.emitSock msid pl])
    | none => p

/-- The `add-group-members` handler: drop if unidentified; authorize as in
member removal, aborting silently otherwise; upsert the membership batch
(duplicates update in place); read back the added users' names; join and
notify each online added user; notify the room of the added set; and emit
one system message per added user. -/
def addGroupMembers (st : ServerState) (sid : String) (groupId : String)
    (userIds : List JId) : ServerState × List Act :=
  match lookupConn st.connectedUsers sid with
  | none => (st, [])
  | some u =>
    let (db1, res1) := dbFindGroupByIdAndCreator groupId u.userId.val st.db
    match res1 with
    | .error _ => ({ st with db := db1 }, [Act.dbRead])
    | .ok none => ({ st with db := db1 }, [Act.dbRead])
    | .ok (some ginfo) =>
        let memberValues := userIds.map (fun m => (groupId, m.val))
        let (db2, res2) := dbUpsertMembers memberValues db1
        match res2 with
        | .error _ => ({ st with db := db2 }, [Act.dbRead, Act.dbWriteOther])
        | .ok _ =>
            let (db3, res3) := dbUsersIn (userIds.map JId.val) db2
            match res3 with
            | .error _ =>
                ({ st with db := db3 }, [Act.dbRead, Act.dbWriteOther, Act.dbRead])
            | .ok addedUsers =>
                let pl := Payload.groupCreatedNotify ginfo.id groupId ginfo.name
                  u.userId
                let (rp1, acts) := addedUsers.foldl
                  (addNotifyStep st.connectedUsers groupId pl) (st.roomPairs, [])
                ({ st with db := db3, roomPairs := rp1 },
                 [Act.dbRead, Act.dbWriteOther, Act.dbRead] ++ acts ++
                  [Act.emitRoom groupId (Payload.membersAdded groupId addedUsers)] ++
                  addedUsers.map (fun au => Act.emitRoom groupId
                    (Payload.systemMsg groupId
                      (au.2 ++ " has been added to the group by " ++ u.userName))))

/-- The `request-groups` handler: drop if unidentified; `sendUserGroups`
additionally drops a falsy user id; otherwise query the caller's groups and
emit the list to the caller (nothing on a store failure). -/
def requestGroups (st : ServerState) (sid : String) : ServerState × List Act :=
  match lookupConn st.connectedUsers sid with
  | none => (st, [])
  | some u =>
    if !u.userId.truthy then (st, [])
    else
      let (db1, res) := dbUserGroups u.userId.val st.db
      match res with
      | .error _ => ({ st with db := db1 }, [Act.dbRead])
      | .ok groups =>
          ({ st with db := db1 },
           [Act.dbRead, Act.emitSock sid (Payload.groupList groups)])

/-- Result of the HTTP group-history route. -/
inductive HttpResp where
  | ok (messages : List (Nat × Nat × String × String))
  | serverError
deriving DecidableEq, Repr

/-- GET /api/groups/:groupId/messages: read with the `is_group` filter
first; exactly on the unknown-column signature retry without the filter; any
other failure (of either read) answers 500. -/
def getGroupMessages (g : String) (db : DbState) : DbState × HttpResp :=
  let (db1, r1) := dbSelectGroupMessages true g db
  match r1 with
  | .ok ms => (db1, .ok ms)
  | .error .badFieldIsGroup =>
      let (db2, r2) := dbSelectGroupMessages false g db1
      match r2 with
      | .ok ms => (db2, .ok ms)
      | .error _ => (db2, .serverError)
  | .error .other => (db1, .serverError)

/-! ### Room-token and group-id properties -/

theorem natToString_data (n : Nat) :
    (natToString n).data = toDecimalAux (n + 1) n := rfl

theorem privateRoomId_inj {a b c d : Nat}
    (h : privateRoomId a b = privateRoomId c d) :
    min a b = min c d ∧ max a b = max c d := by
  have hd := congrArg String.data h
  simp only [privateRoomId, String.data_append, List.append_assoc] at hd
  have hd' := List.append_cancel_left hd
  rw [natToString_data, natToString_data, natToString_data, natToString_data,
    List.singleton_append, List.singleton_append] at hd'
  obtain ⟨h1, h2⟩ := underscore_split (underscore_not_mem_toDecimalAux _ _)
    (underscore_not_mem_toDecimalAux _ _) hd'
  exact ⟨toDecimal_inj _ _ h1, toDecimal_inj _ _ h2⟩

/-- C7: for all valid pairs of distinct numeric user ids, the private room
token is symmetric in its two arguments, and the map from unordered pairs of
distinct ids to tokens is injective: equal tokens force equal unordered
pairs. -/
theorem C7_room_token (a b c d : Nat) (_hab : a ≠ b) (_hcd : c ≠ d) :
    privateRoomId a b = privateRoomId b a ∧
    (privateRoomId a b = privateRoomId c d →
      (a = c ∧ b = d) ∨ (a = d ∧ b = c)) := by
  constructor
  · unfold privateRoomId
    rw [Nat.min_comm, Nat.max_comm]
  · intro h
    obtain ⟨h1, h2⟩ := privateRoomId_inj h
    omega

/-- Witness for C7 at the concrete pair (5, 9) against (9, 5). -/
theorem C7_room_token_witness :
    privateRoomId 5 9 = privateRoomId 9 5 ∧
    (privateRoomId 5 9 = privateRoomId 9 5 →
      (5 = 9 ∧ 9 = 5) ∨ (5 = 5 ∧ 9 = 9)) :=
  C7_room_token 5 9 9 5 (by decide) (by decide)

/-- A store with empty tables, the current schema and no injected
failures. -/
def dbEmpty : DbState := ⟨[], 1, [], 1, [], [], true, []⟩

/-- Connection registry with a single identified user, for concrete runs. -/
def cxConnA : ConnMap := [("sA", ⟨"sA", JId.num 1, "Alice", true⟩)]

/-- A second registry with a different identified user. -/
def cxConnB : ConnMap := [("sB", ⟨"sB", JId.num 2, "Bob", true⟩)]

/-- A server state for user A at millisecond clock 1000. -/
def cxStA : ServerState := ⟨cxConnA, [], dbEmpty, 1000⟩

/-- A server state for user B at the same millisecond clock 1000. -/
def cxStB : ServerState := ⟨cxConnB, [], dbEmpty, 1000⟩

/-- C8 (counterexample): two distinct create-group invocations — different
states, different sockets, different users, different group names — handled
at the same millisecond clock both persist the group id `group_1000`, so
group ids are not unique across invocations. -/
theorem C8_counterexample :
    (createGroup cxStA "sA" ⟨"Team", []⟩).1.db.chat_groups.map
        (fun g => g.groupId) = [genGroupId 1000] ∧
    (createGroup cxStB "sB" ⟨"Club", []⟩).1.db.chat_groups.map
        (fun g => g.groupId) = [genGroupId 1000] ∧
    cxStA ≠ cxStB := by
  refine ⟨by decide, by decide, by decide⟩

/-- C8 (amended): the generated group id is `'group_' + Date.now()`, so two
invocations handled at distinct millisecond clock values receive distinct
group ids, while invocations within the same millisecond collide. -/
theorem C8_groupId_time_inj (n m : Nat) (h : n ≠ m) :
    genGroupId n ≠ genGroupId m := by
  intro he
  apply h
  have hd := congrArg String.data he
  simp only [genGroupId, String.data_append] at hd
  have hd' := List.append_cancel_left hd
  rw [natToString_data, natToString_data] at hd'
  exact toDecimal_inj _ _ hd'

/-- Witness for C8 (amended) at the concrete clocks 1000 and 1001. -/
theorem C8_groupId_time_inj_witness : genGroupId 1000 ≠ genGroupId 1001 :=
  C8_groupId_time_inj 1000 1001 (by decide)

/-! ### Registry lookup -/

/-- C9: the registry lookup by user id returns a socket whose entry's stored
id equals the argument by underlying numeric value; a numeric token and its
textual form find the same entry; the lookup returns null exactly when no
entry matches numerically (in particular it succeeds whenever any entry
matches, though which matching entry wins is the iteration order's
choice). -/
theorem C9_lookup_by_user (us : ConnMap) :
    (∀ uid sid, findSocketIdByUserId us uid = some sid →
      ∃ e, (sid, e) ∈ us ∧ e.userId.val = uid.val) ∧
    (∀ uid, (∀ p ∈ us, p.2.userId.val ≠ uid.val) →
      findSocketIdByUserId us uid = none) ∧
    (∀ v, findSocketIdByUserId us (JId.num v) =
      findSocketIdByUserId us (JId.str v)) ∧
    (∀ uid, (∃ p ∈ us, p.2.userId.val = uid.val) →
      (findSocketIdByUserId us uid).isSome = true) := by
  refine ⟨?_, ?_, ?_, ?_⟩
  · intro uid sid h
    unfold findSocketIdByUserId at h
    rcases hf : us.find? (fun p => looseEq p.2.userId uid) with _ | p
    · rw [hf] at h
      simp at h
    · rw [hf] at h
      simp at h
      have hmem := List.mem_of_find?_eq_some hf
      have hpred := List.find?_some hf
      simp [looseEq] at hpred
      exact ⟨p.2, by rw [← h]; simpa using hmem, hpred⟩
  · intro uid hall
    unfold findSocketIdByUserId
    rw [List.find?_eq_none.mpr]
    · rfl
    · intro p hp
      simp [looseEq]
      exact hall p hp
  · intro v
    unfold findSocketIdByUserId
    rfl
  · intro uid ⟨p, hp, hv⟩
    unfold findSocketIdByUserId
    rcases hf : us.find? (fun p => looseEq p.2.userId uid) with _ | q
    · rw [List.find?_eq_none] at hf
      have := hf p hp
      simp [looseEq] at this
      exact absurd hv this
    · simp [hf]

/-- Witness for C9 on a concrete two-entry registry and the id 7 in both
token forms. -/
theorem C9_lookup_by_user_witness :
    (∃ e, (("s2", e) ∈ ([("s1", ⟨"s1", JId.num 1, "A", true⟩),
        ("s2", ⟨"s2", JId.str 7, "B", true⟩)] : ConnMap) ∧
      e.userId.val = (JId.num 7).val)) ∧
    findSocketIdByUserId [("s1", ⟨"s1", JId.num 1, "A", true⟩),
      ("s2", ⟨"s2", JId.str 7, "B", true⟩)] (JId.num 9) = none := by
  constructor
  · exact (C9_lookup_by_user _).1 (JId.num 7) "s2" (by decide)
  · exact (C9_lookup_by_user _).2.1 (JId.num 9) (by decide)

/-! ### Unidentified connections -/

/-- C10: every modelled real-time event from a connection with no registry
entry for its socket id — create-group, group-message, leave-group,
remove-member, add-members, request-groups — returns the state unchanged
with an empty action trace: no store access, no room change, no emission. -/
theorem C10_unidentified_noop (st : ServerState) (sid : String)
    (h : lookupConn st.connectedUsers sid = none) :
    (∀ d, createGroup st sid d = (st, [])) ∧
    (∀ d, groupMessage st sid d = (st, [])) ∧
    (∀ g, leaveGroup st sid g = (st, [])) ∧
    (∀ g uid, removeGroupMember st sid g uid = (st, [])) ∧
    (∀ g uids, addGroupMembers st sid g uids = (st, [])) ∧
    requestGroups st sid = (st, []) := by
  refine ⟨fun d => ?_, fun d => ?_, fun g => ?_, fun g uid => ?_,
    fun g uids => ?_, ?_⟩ <;>
    simp only [createGroup, groupMessage, leaveGroup, removeGroupMember,
      addGroupMembers, requestGroups, h]

/-- Witness for C10: a socket id absent from a concrete registry. -/
theorem C10_unidentified_noop_witness :
    requestGroups cxStA "ghost" = (cxStA, []) :=
  (C10_unidentified_noop cxStA "ghost" (by decide)).2.2.2.2.2

/-! ### Direct messages -/

/-- C3: for every direct message, delivery to the recipient's socket is
attempted whenever the recipient is online — with any persistence outcome —
and the sender receives a delivery acknowledgment carrying the persisted
message id on success and a null id on failure. -/
theorem C3_private_message (st : ServerState) (sid : String)
    (d : PrivateMsgData) :
    (∀ rsid, findSocketIdByUserId st.connectedUsers d.toUserId = some rsid →
      Act.emitSock rsid
          (Payload.privateMsg d.fromUserId d.fromUserName d.message)
        ∈ (privateMessage st sid d).2) ∧
    (∀ n, (dbInsertMessage false d.fromUserId.val d.message
        (privateRoomId d.fromUserId.val d.toUserId.val) st.db).2 = .ok n →
      Act.emitSock sid (Payload.messageSent d.toUserId d.message (some n))
        ∈ (privateMessage st sid d).2) ∧
    (∀ e, (dbInsertMessage false d.fromUserId.val d.message
        (privateRoomId d.fromUserId.val d.toUserId.val) st.db).2 = .error e →
      Act.emitSock sid (Payload.messageSent d.toUserId d.message none)
        ∈ (privateMessage st sid d).2) := by
  rcases hins : dbInsertMessage false d.fromUserId.val d.message
    (privateRoomId d.fromUserId.val d.toUserId.val) st.db with ⟨db1, res⟩
  refine ⟨?_, ?_, ?_⟩
  · intro rsid hr
    simp only [privateMessage, hr, hins]
    simp
  · intro n hn
    simp at hn
    subst hn
    rcases hr : findSocketIdByUserId st.connectedUsers d.toUserId with _ | rsid <;>
      simp only [privateMessage, hr, hins] <;> simp
  · intro e he
    simp at he
    subst he
    rcases hr : findSocketIdByUserId st.connectedUsers d.toUserId with _ | rsid <;>
      simp only [privateMessage, hr, hins] <;> simp

/-- Witness for C3: Ann (user 5) sends "hi" to Bo (user 9); both online.
With an empty healthy store the insert succeeds with id 1; with an injected
store failure the acknowledgment carries a null id while delivery is still
attempted. -/
theorem C3_private_message_witness :
    (Act.emitSock "s9" (Payload.privateMsg (JId.num 5) "Ann" "hi") ∈
      (privateMessage ⟨[("s5", ⟨"s5", JId.num 5, "Ann", true⟩),
        ("s9", ⟨"s9", JId.num 9, "Bo", true⟩)], [], dbEmpty, 0⟩ "s5"
        ⟨JId.num 9, JId.num 5, "Ann", "hi"⟩).2) ∧
    (Act.emitSock "s5" (Payload.messageSent (JId.num 9) "hi" (some 1)) ∈
      (privateMessage ⟨[("s5", ⟨"s5", JId.num 5, "Ann", true⟩),
        ("s9", ⟨"s9", JId.num 9, "Bo", true⟩)], [], dbEmpty, 0⟩ "s5"
        ⟨JId.num 9, JId.num 5, "Ann", "hi"⟩).2) ∧
    (Act.emitSock "s5" (Payload.messageSent (JId.num 9) "hi" none) ∈
      (privateMessage ⟨[("s5", ⟨"s5", JId.num 5, "Ann", true⟩),
        ("s9", ⟨"s9", JId.num 9, "Bo", true⟩)], [],
        { dbEmpty with failNext := [true] }, 0⟩ "s5"
        ⟨JId.num 9, JId.num 5, "Ann", "hi"⟩).2) := by
  refine ⟨(C3_private_message _ "s5" _).1 "s9" (by decide),
    (C3_private_message _ "s5" _).2.1 1 (by rfl),
    (C3_private_message _ "s5" _).2.2 DbErr.other (by rfl)⟩

/-! ### Group messages -/

/-- Whether an action is a message insert the store accepted. -/
def isOkInsert : Act → Bool
  | .dbInsertMsg _ _ _ _ ok => ok
  | _ => false

/-- Whether an action is a group-message broadcast to a room. -/
def isGroupBroadcast : Act → Bool
  | .emitRoom _ (Payload.groupMsg _ _ _ _ _) => true
  | _ => false

/-- Persist-before-broadcast ordering of a trace: scanning in execution
order, no group-message broadcast may occur before the first successful
message insert (in particular a trace with no successful insert has no
broadcast at all). -/
def noBroadcastBeforeInsert : List Act → Bool
  | [] => true
  | a :: tr =>
    if isOkInsert a then true
    else !isGroupBroadcast a && noBroadcastBeforeInsert tr

theorem pairs_contains_iff (ps : List (String × String)) (q : String × String) :
    ps.contains q = true ↔ q ∈ ps := by
  simp [List.contains, List.elem_iff]

theorem socketRooms_mem (ps : List (String × String)) (sid r : String) :
    r ∈ socketRooms ps sid ↔ (sid, r) ∈ ps := by
  simp only [socketRooms, List.mem_map, List.mem_filter]
  constructor
  · rintro ⟨⟨a, b⟩, ⟨hmem, ha⟩, hb⟩
    simp at ha hb
    rw [← ha, ← hb]
    exact hmem
  · intro h
    exact ⟨(sid, r), ⟨h, by simp⟩, rfl⟩

theorem mem_joinRoom (ps : List (String × String)) (sid room : String) :
    (sid, room) ∈ joinRoom ps sid room := by
  unfold joinRoom
  split
  · rename_i h
    exact (pairs_contains_iff ps (sid, room)).mp h
  · simp

theorem popFail_nil {db : DbState} (h : db.failNext = []) :
    popFail db = (false, db) := by
  unfold popFail
  rw [h]

theorem dbInsertMessage_ok_mem {w : Bool} {uid : Nat} {c r : String}
    {db db' : DbState} {n : Nat}
    (h : dbInsertMessage w uid c r db = (db', Except.ok n)) :
    (⟨n, uid, c, r, w⟩ : MessageRow) ∈ db'.messages := by
  unfold dbInsertMessage at h
  rcases hfn : popFail db with ⟨fail, db1⟩
  rw [hfn] at h
  simp only at h
  rcases fail
  · simp only [Bool.false_eq_true, if_false] at h
    by_cases hw : (w && !db1.hasIsGroup) = true
    · rw [if_pos hw] at h
      simp at h
    · rw [if_neg hw] at h
      obtain ⟨hdb, hok⟩ := Prod.mk.injEq .. ▸ h
      injection hok with hok
      rw [← hdb]
      simp [← hok]
  · simp at h

/-- The membership table is invisible to the message insert: running it
with the table replaced gives the same outcome and the same store state
apart from the replaced table. -/
theorem dbInsertMessage_gm (w : Bool) (uid : Nat) (c r : String)
    (db : DbState) (gm2 : List MemberRow) :
    dbInsertMessage w uid c r { db with group_members := gm2 } =
      ({ (dbInsertMessage w uid c r db).1 with group_members := gm2 },
       (dbInsertMessage w uid c r db).2) := by
  rcases db with ⟨ms, nmi, cg, ngi, gm, us, hig, fn⟩
  rcases fn with _ | ⟨b, rest⟩
  · by_cases hw : (w && !hig) = true <;> simp [dbInsertMessage, popFail, hw]
  · rcases b <;> by_cases hw : (w && !hig) = true <;>
      simp [dbInsertMessage, popFail, hw]

theorem strs_contains_iff (l : List String) (s : String) :
    l.contains s = true ↔ s ∈ l := by
  simp [List.contains, List.elem_iff]

/-- C1: for every group-message event from an identified connection, the
sender's socket ends the handler joined to the target broadcast group, and
when it was not a member the re-join is the very first action (before any
store access); the handler never consults the persisted membership table
(replacing that table changes nothing but the table itself); no socket
leaves the room during the handler, so the broadcast reaches every
connection joined to the group including the sender; no group broadcast
occurs before a successful persist; and whenever persistence succeeds the
broadcast to the group room carries the store-assigned id of a persisted
row holding the sender, content and group room of the event. -/
theorem C1_group_message (st : ServerState) (sid : String) (u : ConnEntry)
    (d : GroupMsgData) (hid : lookupConn st.connectedUsers sid = some u) :
    (sid, d.groupId) ∈ (groupMessage st sid d).1.roomPairs ∧
    ((sid, d.groupId) ∉ st.roomPairs →
      (groupMessage st sid d).2.head? = some (Act.join sid d.groupId)) ∧
    (∀ gm2, groupMessage { st with db := { st.db with group_members := gm2 } } sid d =
      ({ (groupMessage st sid d).1 with
          db := { (groupMessage st sid d).1.db with group_members := gm2 } },
        (groupMessage st sid d).2)) ∧
    (∀ s r, Act.leave s r ∉ (groupMessage st sid d).2) ∧
    noBroadcastBeforeInsert (groupMessage st sid d).2 = true ∧
    ((∃ a ∈ (groupMessage st sid d).2, isOkInsert a = true) →
      ∃ mid b, Act.emitRoom d.groupId (Payload.groupMsg mid d.groupId u.userId
          u.userName d.message) ∈ (groupMessage st sid d).2 ∧
        (⟨mid, u.userId.val, d.message, d.groupId, b⟩ : MessageRow)
          ∈ (groupMessage st sid d).1.db.messages) := by
  obtain ⟨cu, rp, db0, now⟩ := st
  simp only at hid
  rcases hins1 : dbInsertMessage true u.userId.val d.message d.groupId db0
    with ⟨db1, res1⟩
  rcases res1 with e | n
  · rcases e with _ | _
    · rcases hins2 : dbInsertMessage false u.userId.val d.message d.groupId db1
        with ⟨db2, res2⟩
      rcases res2 with e2 | n
      · by_cases hc : ((socketRooms rp sid).contains d.groupId) = true
        · simp only [groupMessage, hid, hins1, hins2, hc, if_true]
          refine ⟨?_, ?_, ?_, ?_, ?_, ?_⟩
          · exact (socketRooms_mem rp sid d.groupId).mp ((strs_contains_iff _ _).mp hc)
          · intro hnm
            exact absurd ((socketRooms_mem rp sid d.groupId).mp
              ((strs_contains_iff _ _).mp hc)) hnm
          · intro gm2
            simp only [groupMessage, hid, dbInsertMessage_gm, hins1, hins2, hc,
              if_true]
          · simp
          · simp [noBroadcastBeforeInsert, isOkInsert, isGroupBroadcast]
          · intro h
            simp [isOkInsert] at h
        · simp only [groupMessage, hid, hins1, hins2, hc, if_false]
          refine ⟨?_, ?_, ?_, ?_, ?_, ?_⟩
          · exact mem_joinRoom rp sid d.groupId
          · intro _
            rfl
          · intro gm2
            simp only [groupMessage, hid, dbInsertMessage_gm, hins1, hins2, hc,
              if_false]
          · simp
          · simp [noBroadcastBeforeInsert, isOkInsert, isGroupBroadcast]
          · intro h
            simp [isOkInsert] at h
      · by_cases hc : ((socketRooms rp sid).contains d.groupId) = true
        · simp only [groupMessage, hid, hins1, hins2, hc, if_true, sendGroupMessage]
          refine ⟨?_, ?_, ?_, ?_, ?_, ?_⟩
          · exact (socketRooms_mem rp sid d.groupId).mp ((strs_contains_iff _ _).mp hc)
          · intro hnm
            exact absurd ((socketRooms_mem rp sid d.groupId).mp
              ((strs_contains_iff _ _).mp hc)) hnm
          · intro gm2
            simp only [groupMessage, hid, dbInsertMessage_gm, hins1, hins2, hc,
              if_true, sendGroupMessage]
          · simp
          · simp [noBroadcastBeforeInsert, isOkInsert, isGroupBroadcast]
          · intro _
            exact ⟨n, false, by simp, dbInsertMessage_ok_mem hins2⟩
        · simp only [groupMessage, hid, hins1, hins2, hc, if_false, sendGroupMessage]
          refine ⟨?_, ?_, ?_, ?_, ?_, ?_⟩
          · exact mem_joinRoom rp sid d.groupId
          · intro _
            rfl
          · intro gm2
            simp only [groupMessage, hid, dbInsertMessage_gm, hins1, hins2, hc,
              if_false, sendGroupMessage]
          · simp
          · simp [noBroadcastBeforeInsert, isOkInsert, isGroupBroadcast]
          · intro _
            exact ⟨n, false, by simp, dbInsertMessage_ok_mem hins2⟩
    · by_cases hc : ((socketRooms rp sid).contains d.groupId) = true
      · simp only [groupMessage, hid, hins1, hc, if_true]
        refine ⟨?_, ?_, ?_, ?_, ?_, ?_⟩
        · exact (socketRooms_mem rp sid d.groupId).mp ((strs_contains_iff _ _).mp hc)
        · intro hnm
          exact absurd ((socketRooms_mem rp sid d.groupId).mp
            ((strs_contains_iff _ _).mp hc)) hnm
        · intro gm2
          simp only [groupMessage, hid, dbInsertMessage_gm, hins1, hc, if_true]
        · simp
        · simp [noBroadcastBeforeInsert, isOkInsert, isGroupBroadcast]
        · intro h
          simp [isOkInsert] at h
      · simp only [groupMessage, hid, hins1, hc, if_false]
        refine ⟨?_, ?_, ?_, ?_, ?_, ?_⟩
        · exact mem_joinRoom rp sid d.groupId
        · intro _
          rfl
        · intro gm2
          simp only [groupMessage, hid, dbInsertMessage_gm, hins1, hc, if_false]
        · simp
        · simp [noBroadcastBeforeInsert, isOkInsert, isGroupBroadcast]
        · intro h
          simp [isOkInsert] at h
  · by_cases hc : ((socketRooms rp sid).contains d.groupId) = true
    · simp only [groupMessage, hid, hins1, hc, if_true, sendGroupMessage]
      refine ⟨?_, ?_, ?_, ?_, ?_, ?_⟩
      · exact (socketRooms_mem rp sid d.groupId).mp ((strs_contains_iff _ _).mp hc)
      · intro hnm
        exact absurd ((socketRooms_mem rp sid d.groupId).mp
          ((strs_contains_iff _ _).mp hc)) hnm
      · intro gm2
        simp only [groupMessage, hid, dbInsertMessage_gm, hins1, hc, if_true,
          sendGroupMessage]
      · simp
      · simp [noBroadcastBeforeInsert, isOkInsert]
      · intro _
        exact ⟨n, true, by simp, dbInsertMessage_ok_mem hins1⟩
    · simp only [groupMessage, hid, hins1, hc, if_false, sendGroupMessage]
      refine ⟨?_, ?_, ?_, ?_, ?_, ?_⟩
      · exact mem_joinRoom rp sid d.groupId
      · intro _
        rfl
      · intro gm2
        simp only [groupMessage, hid, dbInsertMessage_gm, hins1, hc, if_false,
          sendGroupMessage]
      · simp
      · simp [noBroadcastBeforeInsert, isOkInsert, isGroupBroadcast]
      · intro _
        exact ⟨n, true, by simp, dbInsertMessage_ok_mem hins1⟩

/-- Witness for C1: Alice, identified on socket sA and not yet in room g1,
sends a group message against a healthy store. -/
theorem C1_group_message_witness :
    ("sA", "g1") ∈ (groupMessage cxStA "sA" ⟨"g1", "hello"⟩).1.roomPairs ∧
    noBroadcastBeforeInsert (groupMessage cxStA "sA" ⟨"g1", "hello"⟩).2 = true := by
  have h := C1_group_message cxStA "sA" ⟨"sA", JId.num 1, "Alice", true⟩
    ⟨"g1", "hello"⟩ (by rfl)
  exact ⟨h.1, h.2.2.2.2.1⟩

/-! ### The schema-compatibility shim -/

/-- Whether an action is an emission (to a socket or to a room). -/
def isEmit : Act → Bool
  | .emitSock _ _ => true
  | .emitRoom _ _ => true
  | _ => false

/-- C2: on the legacy schema (no `is_group` column) and with no other store
failure, the group-message insert falls back to the reduced form and the
message is still persisted and still broadcast with the store-assigned id —
the emitted actions are identical to those of the primary path on the
current schema.  If instead the primary insert fails with any other error,
nothing at all is emitted (no broadcast, no acknowledgment to the sender).
The group-history read follows the same pattern: the filtered read on the
current schema, and on the legacy schema the unknown-column signature is
recovered by the unfiltered read, both answering 200. -/
theorem C2_schema_shim (st : ServerState) (sid : String) (u : ConnEntry)
    (d : GroupMsgData) (g : String) (db : DbState)
    (hid : lookupConn st.connectedUsers sid = some u) :
    (st.db.hasIsGroup = false → st.db.failNext = [] →
      ((groupMessage st sid d).2.filter isEmit =
        (groupMessage { st with db := { st.db with hasIsGroup := true } } sid d).2.filter
          isEmit) ∧
      ∃ mid, Act.emitRoom d.groupId (Payload.groupMsg mid d.groupId u.userId
          u.userName d.message) ∈ (groupMessage st sid d).2 ∧
        (⟨mid, u.userId.val, d.message, d.groupId, false⟩ : MessageRow)
          ∈ (groupMessage st sid d).1.db.messages) ∧
    (∀ rest, st.db.failNext = true :: rest →
      ∀ a ∈ (groupMessage st sid d).2, isEmit a = false) ∧
    (db.failNext = [] →
      (db.hasIsGroup = false →
        getGroupMessages g db = (db, .ok (selectGroupMessages false g db))) ∧
      (db.hasIsGroup = true →
        getGroupMessages g db = (db, .ok (selectGroupMessages true g db)))) := by
  obtain ⟨cu, rp, db0, now⟩ := st
  obtain ⟨ms, nmi, cg, ngi, gm, us, hig, fn⟩ := db0
  obtain ⟨ms2, nmi2, cg2, ngi2, gm2, us2, hig2, fn2⟩ := db
  simp only at hid
  refine ⟨?_, ?_, ?_⟩
  · intro hF hn
    simp only at hF hn
    subst hF hn
    by_cases hc : ((socketRooms rp sid).contains d.groupId) = true
    · constructor
      · simp [groupMessage, hid, hc, dbInsertMessage, popFail, sendGroupMessage,
          isEmit]
      · refine ⟨nmi, ?_, ?_⟩ <;>
          simp [groupMessage, hid, hc, dbInsertMessage, popFail, sendGroupMessage]
    · constructor
      · simp [groupMessage, hid, hc, dbInsertMessage, popFail, sendGroupMessage,
          isEmit]
      · refine ⟨nmi, ?_, ?_⟩ <;>
          simp [groupMessage, hid, hc, dbInsertMessage, popFail, sendGroupMessage]
  · intro rest hfr
    simp only at hfr
    subst hfr
    by_cases hc : d.groupId ∈ socketRooms rp sid <;>
      simp [groupMessage, hid, hc, dbInsertMessage, popFail, isEmit]
  · intro hn
    simp only at hn
    subst hn
    constructor
    · intro hF
      simp only at hF
      subst hF
      simp [getGroupMessages, dbSelectGroupMessages, popFail]
    · intro hT
      simp only at hT
      subst hT
      simp [getGroupMessages, dbSelectGroupMessages, popFail]

/-- Witness for C2: Alice sends a group message against a legacy-schema
store, and the history route is read on both schema variants. -/
theorem C2_schema_shim_witness :
    (∃ mid, Act.emitRoom "g1" (Payload.groupMsg mid "g1" (JId.num 1) "Alice"
        "hello") ∈ (groupMessage ⟨cxConnA, [], { dbEmpty with hasIsGroup := false },
          0⟩ "sA" ⟨"g1", "hello"⟩).2 ∧
      (⟨mid, 1, "hello", "g1", false⟩ : MessageRow)
        ∈ (groupMessage ⟨cxConnA, [], { dbEmpty with hasIsGroup := false }, 0⟩
            "sA" ⟨"g1", "hello"⟩).1.db.messages) ∧
    getGroupMessages "g1" { dbEmpty with hasIsGroup := false } =
      ({ dbEmpty with hasIsGroup := false },
        .ok (selectGroupMessages false "g1" { dbEmpty with hasIsGroup := false })) := by
  have h := C2_schema_shim ⟨cxConnA, [], { dbEmpty with hasIsGroup := false }, 0⟩
    "sA" ⟨"sA", JId.num 1, "Alice", true⟩ ⟨"g1", "hello"⟩ "g1"
    { dbEmpty with hasIsGroup := false } (by rfl)
  exact ⟨(h.1 rfl rfl).2, (h.2.2 rfl).1 rfl⟩

/-! ### Creator-only authorization -/

/-- C4: for add-members and remove-member events, when the caller's
identified user id does not equal the persisted creator id of the group —
or no such group row exists — the operation aborts silently: the registry,
the room pairs and every store table are unchanged, and the trace holds
nothing but the authorization read (no write, no join or leave, no
emission to anyone). -/
theorem C4_creator_only (st : ServerState) (sid : String) (u : ConnEntry)
    (g : String) (target : JId) (ids : List JId)
    (hid : lookupConn st.connectedUsers sid = some u)
    (hnc : ∀ r ∈ st.db.chat_groups, r.groupId = g → r.creatorId ≠ u.userId.val) :
    ((removeGroupMember st sid g target).1.connectedUsers = st.connectedUsers ∧
     (removeGroupMember st sid g target).1.roomPairs = st.roomPairs ∧
     (removeGroupMember st sid g target).1.db.messages = st.db.messages ∧
     (removeGroupMember st sid g target).1.db.chat_groups = st.db.chat_groups ∧
     (removeGroupMember st sid g target).1.db.group_members = st.db.group_members ∧
     (removeGroupMember st sid g target).1.db.users = st.db.users ∧
     ∀ a ∈ (removeGroupMember st sid g target).2, a = Act.dbRead) ∧
    ((addGroupMembers st sid g ids).1.connectedUsers = st.connectedUsers ∧
     (addGroupMembers st sid g ids).1.roomPairs = st.roomPairs ∧
     (addGroupMembers st sid g ids).1.db.messages = st.db.messages ∧
     (addGroupMembers st sid g ids).1.db.chat_groups = st.db.chat_groups ∧
     (addGroupMembers st sid g ids).1.db.group_members = st.db.group_members ∧
     (addGroupMembers st sid g ids).1.db.users = st.db.users ∧
     ∀ a ∈ (addGroupMembers st sid g ids).2, a = Act.dbRead) := by
  obtain ⟨cu, rp, db0, now⟩ := st
  obtain ⟨ms, nmi, cg, ngi, gm, us, hig, fn⟩ := db0
  simp only at hid hnc
  have hfind : cg.find?
      (fun r => r.groupId = g && r.creatorId = u.userId.val) = none := by
    rw [List.find?_eq_none]
    intro r hr
    simp only [Bool.and_eq_true, decide_eq_true_eq, not_and]
    intro h1
    exact fun h2 => hnc r hr h1 h2
  rcases fn with _ | ⟨b, rest⟩
  · constructor
    · simp [removeGroupMember, hid, dbFindGroupByIdAndCreator, popFail, hfind]
    · simp [addGroupMembers, hid, dbFindGroupByIdAndCreator, popFail, hfind]
  · rcases b
    · constructor
      · simp [removeGroupMember, hid, dbFindGroupByIdAndCreator, popFail, hfind]
      · simp [addGroupMembers, hid, dbFindGroupByIdAndCreator, popFail, hfind]
    · constructor
      · simp [removeGroupMember, hid, dbFindGroupByIdAndCreator, popFail]
      · simp [addGroupMembers, hid, dbFindGroupByIdAndCreator, popFail]

/-- Store that already holds a group g1 created by user 1 with members
1 and 2, for concrete runs. -/
def dbGroup : DbState :=
  ⟨[], 1, [⟨1, "Team", 1, "g1"⟩], 2, [⟨"g1", 1⟩, ⟨"g1", 2⟩],
   [(1, "Alice"), (2, "Bob")], true, []⟩

/-- Witness for C4: Bob (user 2), who is not the creator of g1, tries to
remove Alice and to add user 3. -/
theorem C4_creator_only_witness :
    (removeGroupMember ⟨cxConnB, [], dbGroup, 0⟩ "sB" "g1"
        (JId.num 1)).1.db.group_members = dbGroup.group_members ∧
    (∀ a ∈ (addGroupMembers ⟨cxConnB, [], dbGroup, 0⟩ "sB" "g1"
        [JId.num 3]).2, a = Act.dbRead) := by
  have h := C4_creator_only ⟨cxConnB, [], dbGroup, 0⟩ "sB"
    ⟨"sB", JId.num 2, "Bob", true⟩ "g1" (JId.num 1) [JId.num 3]
    (by rfl) (by decide)
  exact ⟨h.1.2.2.2.2.1, h.2.2.2.2.2.2.2⟩

/-! ### Leaving a group -/

/-- C6: for a leave-group event from an identified member with no store
failure: every membership row of the caller for that group is gone, the
caller's socket has left the broadcast group, the departure system message
is emitted to the group room, and the group row is deleted if and only if
the remaining member count is zero — in particular, after the last member
leaves, looking the group up by its group id returns nothing. -/
theorem C6_leave_group (st : ServerState) (sid : String) (u : ConnEntry)
    (g : String) (hid : lookupConn st.connectedUsers sid = some u)
    (hmem : (⟨g, u.userId.val⟩ : MemberRow) ∈ st.db.group_members)
    (hfail : st.db.failNext = []) :
    (∀ r ∈ (leaveGroup st sid g).1.db.group_members,
      ¬(r.groupId = g ∧ r.userId = u.userId.val)) ∧
    (sid, g) ∉ (leaveGroup st sid g).1.roomPairs ∧
    Act.emitRoom g (Payload.systemMsg g (u.userName ++ " has left the group"))
      ∈ (leaveGroup st sid g).2 ∧
    findGroupByGroupId (leaveGroup st sid g).1.db g =
      (if (st.db.group_members.filter
            (fun r => r.groupId = g && !(r.userId = u.userId.val))).length = 0
        then none else findGroupByGroupId st.db g) := by
  obtain ⟨cu, rp, db0, now⟩ := st
  obtain ⟨ms, nmi, cg, ngi, gm, us, hig, fn⟩ := db0
  simp only at hid hmem hfail
  subst hfail
  have hfilter : (gm.filter
        (fun r => !(r.groupId = g && r.userId = u.userId.val))).filter
      (fun r => r.groupId = g) =
      gm.filter (fun r => r.groupId = g && !(r.userId = u.userId.val)) := by
    rw [List.filter_filter]
    apply List.filter_congr
    intro x _
    by_cases h1 : x.groupId = g <;> by_cases h2 : x.userId = u.userId.val <;>
      simp [h1, h2]
  have key : leaveGroup ⟨cu, rp, ⟨ms, nmi, cg, ngi, gm, us, hig, []⟩, now⟩ sid g =
      (if ((gm.filter (fun r => !(r.groupId = g && r.userId = u.userId.val))).filter
          (fun r => r.groupId = g)).length = 0
        then (⟨cu, leaveRoom rp sid g,
              ⟨ms, nmi, cg.filter (fun r => !(r.groupId = g)), ngi,
               gm.filter (fun r => !(r.groupId = g && r.userId = u.userId.val)),
               us, hig, []⟩, now⟩,
              [Act.dbWriteOther, Act.leave sid g,
               Act.emitSock sid (Payload.leaveGroupResult true g),
               Act.emitRoom g (Payload.systemMsg g
                 (u.userName ++ " has left the group")),
               Act.dbRead, Act.dbWriteOther])
        else (⟨cu, leaveRoom rp sid g,
              ⟨ms, nmi, cg, ngi,
               gm.filter (fun r => !(r.groupId = g && r.userId = u.userId.val)),
               us, hig, []⟩, now⟩,
              [Act.dbWriteOther, Act.leave sid g,
               Act.emitSock sid (Payload.leaveGroupResult true g),
               Act.emitRoom g (Payload.systemMsg g
                 (u.userName ++ " has left the group")),
               Act.dbRead])) := by
    simp [leaveGroup, hid, dbDeleteMembership, dbCountMembers, dbDeleteGroup,
      popFail]
  rw [key]
  by_cases hz : ((gm.filter
      (fun r => !(r.groupId = g && r.userId = u.userId.val))).filter
      (fun r => r.groupId = g)).length = 0
  · rw [if_pos hz]
    have hzS : (gm.filter
        (fun r => r.groupId = g && !(r.userId = u.userId.val))).length = 0 := by
      rw [← hfilter]
      exact hz
    refine ⟨?_, ?_, ?_, ?_⟩
    · intro r hr
      simp only [List.mem_filter] at hr
      intro hcon
      have := hr.2
      simp [hcon.1, hcon.2] at this
    · intro hcon
      simp [leaveRoom, List.mem_filter] at hcon
    · simp
    · rw [if_pos hzS]
      simp only [findGroupByGroupId]
      rw [List.find?_eq_none]
      intro r hr
      simp only [List.mem_filter] at hr
      have := hr.2
      simp only [Bool.not_eq_eq_eq_not, Bool.not_true, decide_eq_false_iff_not] at this
      simp only [decide_eq_true_eq]
      exact this
  · rw [if_neg hz]
    have hzS : ¬(gm.filter
        (fun r => r.groupId = g && !(r.userId = u.userId.val))).length = 0 := by
      rw [← hfilter]
      exact hz
    refine ⟨?_, ?_, ?_, ?_⟩
    · intro r hr
      simp only [List.mem_filter] at hr
      intro hcon
      have := hr.2
      simp [hcon.1, hcon.2] at this
    · intro hcon
      simp [leaveRoom, List.mem_filter] at hcon
    · simp
    · rw [if_neg hzS]
      rfl

/-- Witness for C6: Alice leaves group g1, which she shares with Bob; the
departure is announced and the group row survives (Bob remains). -/
theorem C6_leave_group_witness :
    Act.emitRoom "g1" (Payload.systemMsg "g1" "Alice has left the group")
      ∈ (leaveGroup ⟨cxConnA, [("sA", "g1")], dbGroup, 0⟩ "sA" "g1").2 ∧
    findGroupByGroupId
        (leaveGroup ⟨cxConnA, [("sA", "g1")], dbGroup, 0⟩ "sA" "g1").1.db "g1" =
      some ⟨1, "Team", 1, "g1"⟩ := by
  have h := C6_leave_group ⟨cxConnA, [("sA", "g1")], dbGroup, 0⟩ "sA"
    ⟨"sA", JId.num 1, "Alice", true⟩ "g1" (by rfl) (by decide) (by rfl)
  exact ⟨h.2.2.1, h.2.2.2.trans (by decide)⟩

/-! ### Group creation -/

/-- Whether a payload is the successful group-created notification. -/
def isSuccessCreated : Payload → Bool
  | .groupCreatedOk _ _ _ _ _ => true
  | _ => false

theorem contains_iff_mem {α : Type} [BEq α] [LawfulBEq α] (l : List α) (a : α) :
    l.contains a = true ↔ a ∈ l := by
  simp [List.contains, List.elem_iff]

theorem hasDupB_eq_false {l : List (String × Nat)} (h : hasDupB l = false) :
    l.Nodup := by
  induction l with
  | nil => exact List.nodup_nil
  | cons v vs ih =>
    rw [hasDupB, Bool.or_eq_false_iff] at h
    refine List.nodup_cons.mpr ⟨?_, ih h.2⟩
    intro hm
    rw [(contains_iff_mem vs v).mpr hm] at h
    simp at h

theorem popFail_snd_fields (db : DbState) :
    (popFail db).2.messages = db.messages ∧
    (popFail db).2.nextMessageId = db.nextMessageId ∧
    (popFail db).2.chat_groups = db.chat_groups ∧
    (popFail db).2.nextGroupRowId = db.nextGroupRowId ∧
    (popFail db).2.group_members = db.group_members ∧
    (popFail db).2.users = db.users := by
  obtain ⟨ms, nmi, cg, ngi, gm, us, hig, fn⟩ := db
  rcases fn with _ | ⟨b, rest⟩ <;> simp [popFail]

theorem dbInsertGroup_ok {name : String} {c : Nat} {gid : String}
    {db db' : DbState} {rid : Nat}
    (h : dbInsertGroup name c gid db = (db', Except.ok rid)) :
    db'.chat_groups = db.chat_groups ++ [⟨rid, name, c, gid⟩] ∧
    db'.group_members = db.group_members ∧ db'.users = db.users := by
  unfold dbInsertGroup at h
  rcases hfn : popFail db with ⟨fail, db1⟩
  rw [hfn] at h
  simp only at h
  have hfields := popFail_snd_fields db
  rw [hfn] at hfields
  rcases fail
  · simp only [Bool.false_eq_true, if_false] at h
    by_cases hdup : (db1.chat_groups.any (fun g => g.groupId = gid)) = true
    · rw [if_pos hdup] at h
      simp at h
    · rw [if_neg hdup] at h
      obtain ⟨hdb, hok⟩ := Prod.mk.injEq .. ▸ h
      injection hok with hok
      rw [← hdb, ← hok]
      simp only at hfields
      exact ⟨by simp [hfields.2.2.1], by simp [hfields.2.2.2.2.1],
        by simp [hfields.2.2.2.2.2]⟩
  · simp at h

theorem dbInsertMembers_ok {vals : List (String × Nat)} {db db' : DbState}
    (h : dbInsertMembers vals db = (db', Except.ok ())) :
    hasDupB vals = false ∧
    db'.group_members = db.group_members ++ vals.map (fun v => ⟨v.1, v.2⟩) ∧
    db'.chat_groups = db.chat_groups ∧ db'.users = db.users := by
  unfold dbInsertMembers at h
  rcases hfn : popFail db with ⟨fail, db1⟩
  rw [hfn] at h
  simp only at h
  have hfields := popFail_snd_fields db
  rw [hfn] at hfields
  rcases fail
  · simp only [Bool.false_eq_true, if_false] at h
    by_cases hdup : (hasDupB vals ||
        vals.any (fun v => db1.group_members.any
          (fun r => r.groupId = v.1 && r.userId = v.2))) = true
    · rw [if_pos hdup] at h
      simp at h
    · rw [if_neg hdup] at h
      obtain ⟨hdb, _⟩ := Prod.mk.injEq .. ▸ h
      rw [Bool.or_eq_true] at hdup
      push_neg at hdup
      simp only at hfields
      refine ⟨Bool.not_eq_true _ ▸ hdup.1, ?_, ?_, ?_⟩
      · rw [← hdb]
        simp [hfields.2.2.2.2.1]
      · rw [← hdb]
        simp [hfields.2.2.1]
      · rw [← hdb]
        simp [hfields.2.2.2.2.2]
  · simp at h

theorem filter_map_rows_length (l : List JId) (g : String) (v : Nat)
    (hnd : (l.map JId.val).Nodup) :
    ((l.map (fun m => (⟨g, m.val⟩ : MemberRow))).filter
      (fun r => r.groupId = g && r.userId = v)).length =
      if v ∈ l.map JId.val then 1 else 0 := by
  induction l with
  | nil => simp
  | cons m l ih =>
    rw [List.map_cons] at hnd
    have hnd2 := List.nodup_cons.mp hnd
    by_cases hv : m.val = v
    · have hrest : ((l.map (fun m => (⟨g, m.val⟩ : MemberRow))).filter
          (fun r => r.groupId = g && r.userId = v)) = [] := by
        rw [List.filter_eq_nil_iff]
        rintro r hr
        obtain ⟨w, hw, hweq⟩ := List.mem_map.mp hr
        rw [← hweq]
        simp only [Bool.and_eq_true, decide_eq_true_eq, not_and]
        intro _
        intro hwv
        exact hnd2.1 (hv ▸ hwv ▸ List.mem_map_of_mem JId.val hw)
      simp [hv, hrest]
    · have hmm : v ∈ JId.val m :: l.map JId.val ↔ v ∈ l.map JId.val := by
        simp [List.mem_cons]
        intro hvv
        exact absurd hvv.symm hv
      simp only [List.map_cons, List.filter_cons]
      simp [hv, hmm, ih hnd2.2]

theorem rows_map (l : List JId) (g : String) :
    (l.map (fun m => (g, m.val))).map (fun v => (⟨v.1, v.2⟩ : MemberRow)) =
      l.map (fun m => ⟨g, m.val⟩) := by
  induction l with
  | nil => rfl
  | cons m l ih => simp [ih]

theorem nodup_vals (l : List JId) (g : String)
    (h : (l.map (fun m => (g, m.val))).Nodup) : (l.map JId.val).Nodup := by
  induction l with
  | nil => simp
  | cons m l ih =>
    simp only [List.map_cons, List.nodup_cons] at *
    refine ⟨?_, ih h.2⟩
    intro hm
    apply h.1
    obtain ⟨w, hw, hweq⟩ := List.mem_map.mp hm
    exact List.mem_map.mpr ⟨w, hw, by rw [hweq]⟩

/-- C5: after a successful create-group (the success notification was
emitted) by an identified creator, against a store holding no membership row
yet for the generated group id: the membership table holds exactly one row
for the new group per distinct numeric user among the creator and the
invitees — the creator is counted even when absent from the invite list, and
no duplicate row arises when the creator appears in it — and querying any
invited user's groups afterwards includes the new group. -/
theorem C5_create_group (st : ServerState) (sid : String) (u : ConnEntry)
    (d : CreateGroupData)
    (hid : lookupConn st.connectedUsers sid = some u)
    (hfresh : ∀ r ∈ st.db.group_members, r.groupId ≠ genGroupId st.now)
    (hsucc : ∃ sid2 pl, Act.emitSock sid2 pl ∈ (createGroup st sid d).2 ∧
      isSuccessCreated pl = true) :
    (∀ v : Nat, ((createGroup st sid d).1.db.group_members.filter
        (fun r => r.groupId = genGroupId st.now && r.userId = v)).length =
      (if v = u.userId.val ∨ v ∈ d.memberIds.map JId.val then 1 else 0)) ∧
    (∀ m ∈ d.memberIds, ∃ e ∈ userGroupsRows (createGroup st sid d).1.db m.val,
      e.1 = genGroupId st.now) := by
  rcases hres1 : dbInsertGroup d.groupName u.userId.val (genGroupId st.now) st.db
    with ⟨db1, res1⟩
  rcases res1 with e1 | rowId
  · exfalso
    obtain ⟨s2, pl, hm, hs⟩ := hsucc
    simp [createGroup, hid, hres1] at hm
    rw [hm.2] at hs
    simp [isSuccessCreated] at hs
  · obtain ⟨hcg1, hgm1, hus1⟩ := dbInsertGroup_ok hres1
    by_cases hct : u.userId ∈ d.memberIds
    · rcases hres2 : dbInsertMembers
          (d.memberIds.map (fun m => (genGroupId st.now, m.val))) db1
        with ⟨db2, res2⟩
      rcases res2 with e2 | ⟨⟩
      · exfalso
        obtain ⟨s2, pl, hm, hs⟩ := hsucc
        simp [createGroup, hid, hres1, hres2, hct] at hm
        rw [hm.2] at hs
        simp [isSuccessCreated] at hs
      · obtain ⟨hnodup, hgm2, hcg2, hus2⟩ := dbInsertMembers_ok hres2
        have hnd : (d.memberIds.map JId.val).Nodup :=
          nodup_vals _ _ (hasDupB_eq_false hnodup)
        have hfinal : (createGroup st sid d).1.db = db2 := by
          simp [createGroup, hid, hres1, hres2, hct]
        have hu : u.userId.val ∈ d.memberIds.map JId.val :=
          List.mem_map_of_mem JId.val hct
        constructor
        · intro v
          rw [hfinal, hgm2, hgm1, rows_map, List.filter_append, List.length_append]
          have hold : (st.db.group_members.filter
              (fun r => r.groupId = genGroupId st.now && r.userId = v)) = [] := by
            rw [List.filter_eq_nil_iff]
            intro r hr
            simp only [Bool.and_eq_true, decide_eq_true_eq, not_and]
            intro h1 _
            exact absurd h1 (hfresh r hr)
          rw [hold, filter_map_rows_length d.memberIds (genGroupId st.now) v hnd]
          simp only [List.length_nil, Nat.zero_add]
          by_cases hvm : v ∈ d.memberIds.map JId.val
          · simp [hvm]
          · have hvu : ¬v = u.userId.val := fun hvu => hvm (hvu ▸ hu)
            simp [hvm, hvu]
        · intro m hm
          rw [hfinal]
          have hrowmem : (⟨genGroupId st.now, m.val⟩ : MemberRow)
              ∈ db2.group_members := by
            rw [hgm2, hgm1, rows_map]
            exact List.mem_append_right _ (List.mem_map.mpr ⟨m, hm, rfl⟩)
          have hgrow : (⟨rowId, d.groupName, u.userId.val, genGroupId st.now⟩ :
              GroupRow) ∈ db2.chat_groups := by
            rw [hcg2, hcg1]
            exact List.mem_append_right _ (by simp)
          have hany : db2.group_members.any
              (fun r => r.groupId = genGroupId st.now && r.userId = m.val) = true :=
            List.any_eq_true.mpr ⟨_, hrowmem, by simp⟩
          exact ⟨_, List.mem_map.mpr ⟨_, List.mem_filter.mpr ⟨hgrow, hany⟩, rfl⟩, rfl⟩
    · rcases hres2 : dbInsertMembers
          (d.memberIds.map (fun m => (genGroupId st.now, m.val)) ++
            [(genGroupId st.now, u.userId.val)]) db1
        with ⟨db2, res2⟩
      rcases res2 with e2 | ⟨⟩
      · exfalso
        obtain ⟨s2, pl, hm, hs⟩ := hsucc
        simp [createGroup, hid, hres1, hres2, hct] at hm
        rw [hm.2] at hs
        simp [isSuccessCreated] at hs
      · have hres2A : dbInsertMembers
            ((d.memberIds ++ [u.userId]).map (fun m => (genGroupId st.now, m.val)))
            db1 = (db2, Except.ok ()) := by
          rw [List.map_append]
          exact hres2
        obtain ⟨hnodup, hgm2, hcg2, hus2⟩ := dbInsertMembers_ok hres2A
        have hnd : ((d.memberIds ++ [u.userId]).map JId.val).Nodup :=
          nodup_vals _ _ (hasDupB_eq_false hnodup)
        have hfinal : (createGroup st sid d).1.db = db2 := by
          simp [createGroup, hid, hres1, hres2, hct]
        constructor
        · intro v
          rw [hfinal, hgm2, hgm1, rows_map, List.filter_append, List.length_append]
          have hold : (st.db.group_members.filter
              (fun r => r.groupId = genGroupId st.now && r.userId = v)) = [] := by
            rw [List.filter_eq_nil_iff]
            intro r hr
            simp only [Bool.and_eq_true, decide_eq_true_eq, not_and]
            intro h1 _
            exact absurd h1 (hfresh r hr)
          rw [hold,
            filter_map_rows_length (d.memberIds ++ [u.userId]) (genGroupId st.now) v hnd]
          simp only [List.length_nil, Nat.zero_add]
          have hcond : (v ∈ (d.memberIds ++ [u.userId]).map JId.val) ↔
              (v = u.userId.val ∨ v ∈ d.memberIds.map JId.val) := by
            simp [List.mem_append]
            rw [or_comm]
          rw [if_congr hcond rfl rfl]
        · intro m hm
          rw [hfinal]
          have hrowmem : (⟨genGroupId st.now, m.val⟩ : MemberRow)
              ∈ db2.group_members := by
            rw [hgm2, hgm1, rows_map]
            exact List.mem_append_right _
              (List.mem_map.mpr ⟨m, List.mem_append_left _ hm, rfl⟩)
          have hgrow : (⟨rowId, d.groupName, u.userId.val, genGroupId st.now⟩ :
              GroupRow) ∈ db2.chat_groups := by
            rw [hcg2, hcg1]
            exact List.mem_append_right _ (by simp)
          have hany : db2.group_members.any
              (fun r => r.groupId = genGroupId st.now && r.userId = m.val) = true :=
            List.any_eq_true.mpr ⟨_, hrowmem, by simp⟩
          exact ⟨_, List.mem_map.mpr ⟨_, List.mem_filter.mpr ⟨hgrow, hany⟩, rfl⟩, rfl⟩

/-- Witness for C5: Alice (user 1) creates "Team" inviting user 2; the
success notification is emitted, exactly one membership row exists for the
creator, and user 2's groups include the new group. -/
theorem C5_create_group_witness :
    ((createGroup cxStA "sA" ⟨"Team", [JId.num 2]⟩).1.db.group_members.filter
        (fun r => r.groupId = genGroupId 1000 && r.userId = 1)).length = 1 ∧
    (∃ e ∈ userGroupsRows (createGroup cxStA "sA" ⟨"Team", [JId.num 2]⟩).1.db 2,
      e.1 = genGroupId 1000) := by
  have h := C5_create_group cxStA "sA" ⟨"sA", JId.num 1, "Alice", true⟩
    ⟨"Team", [JId.num 2]⟩ (by rfl) (by decide)
    ⟨"sA", Payload.groupCreatedOk 1 (genGroupId 1000) "Team" (JId.num 1)
      [JId.num 2, JId.num 1], by decide, by decide⟩
  exact ⟨(h.1 1).trans (by decide), h.2 (JId.num 2) (by decide)⟩
